import Mathlib

/-!
Verification of the `rua` bytecode code generator (`src/compiler/mod.rs`).

The compiler walks the parsed AST (`src/parser/types/mod.rs`) and emits
register-based bytecode.  The walk is embedded shallowly below: every visit
method of `CodeGen` becomes a Lean function threading the instruction buffer
and an explicit state (`St`) through `Except`.  Rust `panic!`/`unimplemented!`
become the `Failure.panicked` outcome, `Result::Err` becomes `Failure.err`,
and the unbounded Rust recursion is driven by a fuel parameter whose
exhaustion is the separate outcome `Failure.fuelOut`.

The repository's `compiler/opcodes.rs`, `compiler/symbol_table.rs`,
`compiler/resource_allocator.rs`, `compiler/types.rs` and `lexer/tokens.rs`
are not present under `src/`; those parts (resource allocators, scoped symbol
table, upvalue propagation, label resolution, the `Expect`/`RetExpect`/
`CompileError` types and the token→opcode map) are modelled from the spec, as
flagged by their doc comments.  Lua numbers are modelled as `Int`: no claim
under test depends on non-integral constants or float arithmetic, only on
structural (dis)equality of constants.
-/

namespace Rua

abbrev Name := String

/-- Numbers of the modelled language (`f64` in the source; see the file
comment for why `Int` suffices here). -/
abbrev Number := Int

/-- Modelled from the spec: the operator tokens of `lexer::tokens::FlagType`
consumed by the compiler (`lexer/tokens.rs` is absent from `src/`). -/
inductive FlagType where
  | Plus | Minus | Mul | Div
  | OR | AND | Not
  | LESS | LEQ | GREATER | GEQ | EQ | NEQ
  deriving DecidableEq, Repr

/-- The VM opcodes used by the code generator (spec §6). -/
inductive OpName where
  | MOVE | LOADK | LOADBOOL | LOADNIL | GETUPVAL | GETGLOBAL | SETGLOBAL
  | ADD | SUB | MUL | DIV | EQ | LT | LE | TEST | JMP | CALL | CLOSURE | RETURN
  deriving DecidableEq, Repr

/-- Constant-pool values (`ConstType` in the source; only `Real` and `Str`
are constructed by `compiler/mod.rs`). -/
inductive ConstType where
  | Real (n : Number)
  | Str (s : Name)
  deriving DecidableEq, Repr

/-- In-stream instruction representation (`OpMode`): three encodings plus
symbolic `Label` markers (spec §3). -/
inductive OpMode where
  | iABC (op : OpName) (a b c : Nat)
  | iABx (op : OpName) (a bx : Nat)
  | iAsBx (op : OpName) (a : Nat) (sbx : Int)
  | Label (l : Nat)
  deriving DecidableEq, Repr

/-- Modelled from the spec: the error kinds of §7 (`compiler/types.rs` is
absent from `src/`).  `SyntexError` keeps the source's spelling
(`CompileError::SyntexError` in `compiler/mod.rs`); `Unimplemented` is listed
by the spec but never constructed by the visible code, which panics instead. -/
inductive CompileError where
  | SyntexError
  | UndefinedSymbol
  | Unimplemented
  deriving DecidableEq, Repr

/-- How a compilation step can fail to return normally: a structured
`CompileError` (Rust `Err`), a process abort (Rust `panic!` /
`unimplemented!`), or exhaustion of the embedding's fuel. -/
inductive Failure where
  | err (e : CompileError)
  | panicked (msg : String)
  | fuelOut
  deriving DecidableEq, Repr

/-- Modelled from the spec: the expression-visit hint (§4.4);
`compiler/mod.rs` only ever constructs `Expect::Reg`. -/
inductive Expect where
  | Reg (r : Nat)
  deriving DecidableEq, Repr

/-- Return-count expectation for calls (spec §4.7). -/
inductive RetExpect where
  | Num (n : Nat)
  | Indeterminate
  deriving DecidableEq, Repr

/-- Modelled from the spec: symbol resolution results (§3); the register is
carried beside the scope, as in `compiler/mod.rs`'s uses of `lookup`. -/
inductive SymbolScope where
  | Local
  | UpValue (depth : Nat)
  | Global
  deriving DecidableEq, Repr

mutual
/-- The AST consumed by the compiler (`parser/types/mod.rs`). -/
inductive Expr where
  | Num (n : Number)
  | Boole (b : Bool)
  | Str (s : String)
  | Var (v : Var)
  | BinOp (op : FlagType) (l r : Expr)
  | UnaryOp (op : FlagType) (e : Expr)
  | FunctionDef (paras : List Name) (is_vararg : Bool) (body : Block)
  | FunctionCall (func : Expr) (args : List Expr) (is_vararg : Bool)

/-- Assignment targets; `pexp` is the source's `Var::PrefixExp`. -/
inductive Var where
  | Name (n : String)
  | pexp (e : Expr)
  | Reg (r : Nat)

inductive Block where
  | mk (stats : List Stat) (ret : Option (List Expr))

inductive Stat where
  | Empty
  | Break
  | Assign (vars : List Var) (exprs : List Expr)
  | AssignLocal (names : List Name) (exprs : List Expr)
  | IfElse (cond : Expr) (tbr : Block) (ebr : Option Block)
  | While (cond : Expr) (body : Block)
  | ForRange (names : List Name) (exprs : List Expr) (body : Block)
  | Ret (exprs : List Expr)
end

inductive Node where
  | Expr (e : Expr)
  | Block (b : Block)

/-- The serializable function prototype (`FunctionChunk`): an inductive
because prototypes nest. -/
inductive FunctionChunk where
  | mk (upvalue_num para_num : Nat) (is_vararg : Bool) (stack_size ins_len : Nat)
       (instructions : List OpMode) (constants : List ConstType)
       (funclist_len : Nat) (function_prototypes : List FunctionChunk)

def FunctionChunk.upvalue_num : FunctionChunk → Nat
  | .mk u _ _ _ _ _ _ _ _ => u

def FunctionChunk.para_num : FunctionChunk → Nat
  | .mk _ p _ _ _ _ _ _ _ => p

def FunctionChunk.is_vararg : FunctionChunk → Bool
  | .mk _ _ v _ _ _ _ _ _ => v

def FunctionChunk.stack_size : FunctionChunk → Nat
  | .mk _ _ _ s _ _ _ _ _ => s

def FunctionChunk.ins_len : FunctionChunk → Nat
  | .mk _ _ _ _ l _ _ _ _ => l

def FunctionChunk.instructions : FunctionChunk → List OpMode
  | .mk _ _ _ _ _ i _ _ _ => i

def FunctionChunk.constants : FunctionChunk → List ConstType
  | .mk _ _ _ _ _ _ c _ _ => c

def FunctionChunk.funclist_len : FunctionChunk → Nat
  | .mk _ _ _ _ _ _ _ f _ => f

def FunctionChunk.function_prototypes : FunctionChunk → List FunctionChunk
  | .mk _ _ _ _ _ _ _ _ p => p

/-- `FunctionPrototype`: the chunk plus the upvalue descriptors consumed by
the enclosing generator (spec §3). -/
structure FunctionPrototype where
  prototype : FunctionChunk
  upvalue_list : List (Bool × Nat × Nat)

/-- Modelled from the spec: the per-function `ResourceAlloc` bundle (§4.1;
`compiler/resource_allocator.rs` is absent from `src/`).  Register names are
recorded for debugging only (§4.1) and are not tracked here. -/
structure RAlloc where
  regCount : Nat
  consts : List ConstType
  protos : List FunctionChunk
  labelCount : Nat
  upvals : List (Name × Bool × Nat)

def RAlloc.new : RAlloc := ⟨0, [], [], 0, []⟩

/-- `reg_alloc.push`: vend the next free register and grow the high-water
mark (spec §3). -/
def RAlloc.regPush (a : RAlloc) : Nat × RAlloc :=
  (a.regCount, { a with regCount := a.regCount + 1 })

def constIndex : List ConstType → ConstType → Option Nat
  | [], _ => none
  | c :: rest, v => if c = v then some 0 else (constIndex rest v).map (· + 1)

/-- `const_alloc.push`: deduplicating constant-pool insertion (spec §3). -/
def RAlloc.constPush (a : RAlloc) (v : ConstType) : Nat × RAlloc :=
  match constIndex a.consts v with
  | some i => (i, a)
  | none => (a.consts.length, { a with consts := a.consts ++ [v] })

/-- `label_alloc.new_label`: fresh monotonic label (spec §3). -/
def RAlloc.newLabel (a : RAlloc) : Nat × RAlloc :=
  (a.labelCount, { a with labelCount := a.labelCount + 1 })

/-- `function_alloc.push` (spec §4.1). -/
def RAlloc.funcPush (a : RAlloc) (c : FunctionChunk) : Nat × RAlloc :=
  (a.protos.length, { a with protos := a.protos ++ [c] })

def upvalIndex : List (Name × Bool × Nat) → Name → Option Nat
  | [], _ => none
  | (m, _, _) :: rest, n => if m = n then some 0 else (upvalIndex rest n).map (· + 1)

/-- `upvalue_alloc.lookup_or_add` (spec §4.1): re-requesting a captured name
yields the already-assigned slot. -/
def RAlloc.upvalLookupOrAdd (a : RAlloc) (n : Name) (imm : Bool) (src : Nat) :
    Nat × RAlloc :=
  match upvalIndex a.upvals n with
  | some i => (i, a)
  | none => (a.upvals.length, { a with upvals := a.upvals ++ [(n, imm, src)] })

/-- `upvalue_alloc.into_list`: ordered descriptors
`(is_immediate, slot_in_closure, source_slot)` (spec §3, §4.4). -/
def upvalsIntoList (l : List (Name × Bool × Nat)) : List (Bool × Nat × Nat) :=
  l.enum.map (fun p => (p.2.2.1, p.1, p.2.2.2))

/-- Modelled from the spec: the scoped symbol table (§4.2;
`compiler/symbol_table.rs` is absent from `src/`).  `compiler/mod.rs` never
calls `enter_block`/`leave_block`, so each function frame is a single
binding list.  A name found in no frame and not previously marked global
resolves to no symbol: this is required by the live `None` arm of
`Stat::Assign` and by `lookup(name).ok_or(UndefinedSymbol)` in `visit_var`. -/
structure SymTable where
  frames : List (List (Name × Nat))
  globals : List Name

def SymTable.new : SymTable := ⟨[[]], []⟩

/-- `initialize_scope`: push a function frame. -/
def SymTable.beginScope (t : SymTable) : SymTable :=
  { t with frames := [] :: t.frames }

/-- `finalize_scope`: pop the innermost function frame. -/
def SymTable.endScope (t : SymTable) : SymTable :=
  { t with frames := t.frames.tail }

def SymTable.defineLocal (t : SymTable) (n : Name) (reg : Nat) : SymTable :=
  match t.frames with
  | [] => t
  | f :: rest => { t with frames := ((n, reg) :: f) :: rest }

def SymTable.defineGlobal (t : SymTable) (n : Name) : SymTable :=
  { t with globals := n :: t.globals }

def frameLookup : List (Name × Nat) → Name → Option Nat
  | [], _ => none
  | (m, r) :: rest, n => if m = n then some r else frameLookup rest n

def outerLookup : List (List (Name × Nat)) → Name → Nat → Option (Nat × Nat)
  | [], _, _ => none
  | f :: rest, n, d =>
    match frameLookup f n with
    | some r => some (d, r)
    | none => outerLookup rest n (d + 1)

/-- `lookup`: innermost frame gives `Local`, outer frames give `UpValue`
with the depth traversed, known globals give `Global` (spec §4.2). -/
def SymTable.lookup (t : SymTable) (n : Name) : Option (SymbolScope × Nat) :=
  match t.frames with
  | [] => none
  | f :: rest =>
    match frameLookup f n with
    | some r => some (.Local, r)
    | none =>
      match outerLookup rest n 1 with
      | some (d, r) => some (.UpValue d, r)
      | none => if t.globals.contains n then some (.Global, 0) else none

/-- The generator state: the current function's `ResourceAlloc`, the chain of
enclosing allocators (the source's raw `parent` pointers, spec §4.1), and the
`CodeGen`-wide symbol table. -/
structure St where
  cur : RAlloc
  parents : List RAlloc
  symtab : SymTable

def St.init : St := ⟨RAlloc.new, [], SymTable.new⟩

def St.regPush (st : St) : Nat × St :=
  let p := st.cur.regPush
  (p.1, { st with cur := p.2 })

def St.constPush (st : St) (v : ConstType) : Nat × St :=
  let p := st.cur.constPush v
  (p.1, { st with cur := p.2 })

def St.newLabel (st : St) : Nat × St :=
  let p := st.cur.newLabel
  (p.1, { st with cur := p.2 })

def St.funcPush (st : St) (c : FunctionChunk) : Nat × St :=
  let p := st.cur.funcPush c
  (p.1, { st with cur := p.2 })

def St.defineLocal (st : St) (n : Name) (reg : Nat) : St :=
  { st with symtab := st.symtab.defineLocal n reg }

/-- Entry to `visit_function`: a fresh `ResourceAlloc` whose parent is the
caller's (spec §4.9 step 1). -/
def St.pushFrame (st : St) : St :=
  { st with parents := st.cur :: st.parents, cur := RAlloc.new }

/-- Exit from `visit_function`: the child allocator is consumed, the parent
(updated by any upvalue propagation) becomes current again. -/
def St.popFrame (st : St) : RAlloc × St :=
  match st.parents with
  | p :: ps => (st.cur, { st with cur := p, parents := ps })
  | [] => (st.cur, { st with cur := RAlloc.new, parents := [] })

/-- Modelled from the spec: upvalue propagation (§4.3) along the allocator
chain.  `depth = 1` captures immediately from the parent's registers;
deeper captures recurse first so every intermediate function acquires a
relay descriptor. -/
def propagateChain : Name → Nat → Nat → RAlloc → List RAlloc →
    Nat × RAlloc × List RAlloc
  | n, origin, 0, cur, parents =>
    let p := cur.upvalLookupOrAdd n true origin
    (p.1, p.2, parents)
  | n, origin, 1, cur, parents =>
    let p := cur.upvalLookupOrAdd n true origin
    (p.1, p.2, parents)
  | _, _, _ + 2, cur, [] => (0, cur, [])
  | n, origin, d + 2, cur, p :: ps =>
    let q := propagateChain n origin (d + 1) p ps
    let r := cur.upvalLookupOrAdd n false q.1
    (r.1, r.2, q.2.1 :: q.2.2)

def St.propagate (st : St) (n : Name) (origin : Nat) (depth : Nat) : Nat × St :=
  let q := propagateChain n origin depth st.cur st.parents
  (q.1, { st with cur := q.2.1, parents := q.2.2 })

/-- Modelled from the spec: first pass of label resolution (§4.10), mapping
each label id to its output index (markers not counted). -/
def labelPositions : List OpMode → Nat → List (Nat × Nat)
  | [], _ => []
  | .Label l :: rest, pc => (l, pc) :: labelPositions rest pc
  | _ :: rest, pc => labelPositions rest (pc + 1)

def posLookup : List (Nat × Nat) → Nat → Nat
  | [], _ => 0
  | (l, p) :: rest, x => if l = x then p else posLookup rest x

/-- Modelled from the spec: second pass of label resolution (§4.10): drop
markers and rewrite each `JMP`'s label operand into the PC-relative
displacement `position - (pc + 1)`. -/
def rewriteJmps (positions : List (Nat × Nat)) : List OpMode → Nat → List OpMode
  | [], _ => []
  | .iAsBx .JMP a sbx :: rest, pc =>
    .iAsBx .JMP a ((posLookup positions sbx.toNat : Int) - (pc + 1)) ::
      rewriteJmps positions rest (pc + 1)
  | .Label _ :: rest, pc => rewriteJmps positions rest pc
  | i :: rest, pc => i :: rewriteJmps positions rest (pc + 1)

/-- `Vec<OpMode>::remove_label` used by `visit_logic_arith`. -/
def removeLabel (ins : List OpMode) : List OpMode :=
  rewriteJmps (labelPositions ins 0) ins 0

/-- Modelled from the spec: the arithmetic token→opcode map
`get_opflag_opname_map` (spec §2; `compiler/opcodes.rs` is absent from
`src/`). -/
def flagToOp : FlagType → Option OpName
  | .Plus => some .ADD
  | .Minus => some .SUB
  | .Mul => some .MUL
  | .Div => some .DIV
  | _ => none

/-- Modelled from the spec: `extract_expect_reg` of `compiler/types.rs`
(absent from `src/`); with `Expect::Reg` the only constructed variant it
simply unwraps the register. -/
def extractExpectReg : Option Expect → Except Failure (Option Nat)
  | none => .ok none
  | some (.Reg r) => .ok (some r)

/-- The `(var, (is_temp, reg))` loop of `Stat::Assign` in `visit_stat`:
globals get `SETGLOBAL` after `prepare_global_value`, locals get `MOVE`,
upvalue targets and non-name targets hit `unimplemented!()`. -/
def assignPairs : List (Var × (Bool × Nat)) → List OpMode → St →
    Except Failure (List OpMode × St)
  | [], ins, st => .ok (ins, st)
  | (v, (_, reg)) :: rest, ins, st =>
    match v with
    | .Name name =>
      match st.symtab.lookup name with
      | some (.Global, _)
      | none =>
        let p := st.constPush (.Str name)
        let st' := { p.2 with symtab := p.2.symtab.defineGlobal name }
        assignPairs rest (ins ++ [.iABx .SETGLOBAL reg p.1]) st'
      | some (.Local, pos) =>
        assignPairs rest (ins ++ [.iABx .MOVE pos reg]) st
      | some (.UpValue _, _) => .error (.panicked "not implemented")
    | _ => .error (.panicked "not implemented")

/-- The `(name, (is_temp, reg))` loop of `Stat::AssignLocal` in `visit_stat`:
a temporary source register is renamed via `push_set` (no growth, no `MOVE`),
otherwise a fresh register is allocated and one `MOVE` emitted. -/
def assignLocalPairs : List (Name × (Bool × Nat)) → List OpMode → St →
    List OpMode × St
  | [], ins, st => (ins, st)
  | (name, (is_temp, expr_reg)) :: rest, ins, st =>
    if is_temp then
      assignLocalPairs rest ins (st.defineLocal name expr_reg)
    else
      let p := st.regPush
      assignLocalPairs rest (ins ++ [.iABx .MOVE p.1 expr_reg])
        (p.2.defineLocal name p.1)

/-- Allocate `n` fresh contiguous registers, returning them in order. -/
def pushRegs : Nat → St → List Nat × St
  | 0, st => ([], st)
  | n + 1, st =>
    let p := st.regPush
    let q := pushRegs n p.2
    (p.1 :: q.1, q.2)

/-- The upvalue-binding pseudo-instructions following a `CLOSURE` (spec §4.4):
`MOVE` for an immediate capture, `GETUPVAL` for a relay. -/
def closureUpvalMoves : List (Bool × Nat × Nat) → List OpMode
  | [] => []
  | (imm, pos_in_vl, pos_in_parent) :: rest =>
    (if imm then OpMode.iABx .MOVE pos_in_vl pos_in_parent
     else OpMode.iABx .GETUPVAL pos_in_vl pos_in_parent) :: closureUpvalMoves rest

/-- The `RetExpect` arm of `visit_function_call` (compiler/mod.rs:523):
pre-allocate the result registers and compute the `C` field,
`Num k => (k + 1, k registers pushed)`, `Indeterminate => (0, st)`. -/
def retFieldPair : RetExpect → St → Nat × St
  | .Num ret_num, st => (ret_num + 1, (pushRegs ret_num st).2)
  | .Indeterminate, st => (0, st)

/-- Parameter definition loop of `visit_function`: reserve a register for and
bind each parameter name (spec §4.9 step 2). -/
def defineParas : List Name → St → St
  | [], st => st
  | n :: rest, st =>
    let p := st.regPush
    defineParas rest (p.2.defineLocal n p.1)

/-- `CodeGen::visit_var` (compiler/mod.rs:452): globals via `GETGLOBAL`,
upvalues via propagation then `GETUPVAL`, locals by register (a `MOVE` only
into a differing expected register); synthetic `Var::Reg` returns
`(true, reg)` directly and `Var::PrefixExp` hits `unimplemented!()`. -/
def visit_var (var : Var) (expect_reg : Option Nat) (ins : List OpMode)
    (st : St) : Except Failure ((Bool × Nat) × List OpMode × St) :=
  match var with
  | .Name name =>
    match st.symtab.lookup name with
    | none => .error (.err .UndefinedSymbol)
    | some (scope, pos) =>
      match scope with
      | .Global =>
        let cp := st.constPush (.Str name)
        let q := match expect_reg with
          | some r => (r, cp.2)
          | none => cp.2.regPush
        .ok ((true, q.1), ins ++ [OpMode.iABx .GETGLOBAL q.1 cp.1], q.2)
      | .UpValue depth =>
        let up := st.propagate name pos depth
        let q := match expect_reg with
          | some r => (r, up.2)
          | none => up.2.regPush
        .ok ((true, q.1), ins ++ [OpMode.iABx .GETUPVAL q.1 up.1], q.2)
      | .Local =>
        match expect_reg with
        | some e =>
          if e ≠ pos then
            .ok ((false, e), ins ++ [OpMode.iABx .MOVE e pos], st)
          else
            .ok ((false, e), ins, st)
        | none => .ok ((false, pos), ins, st)
  | .Reg reg => .ok ((true, reg), ins, st)
  | .pexp _ => .error (.panicked "not implemented")

set_option maxHeartbeats 1000000 in
mutual

/-- `CodeGen::visit_function` (compiler/mod.rs:48). -/
def visit_function (fuel : Nat) (node : Node) (paras : List Name)
    (is_vararg : Bool) (st : St) : Except Failure (FunctionPrototype × St) :=
  match fuel with
  | 0 => .error .fuelOut
  | fuel + 1 =>
    let st := st.pushFrame
    let st := defineParas paras st
    match visit_block fuel node [] st with
    | .error e => .error e
    | .ok (ins, st) =>
      let ins := ins ++ [OpMode.iABx .RETURN 0 1]
      let q := st.popFrame
      let child := q.1
      let chunk : FunctionChunk := .mk child.upvals.length paras.length is_vararg
        child.regCount ins.length ins child.consts child.protos.length child.protos
      .ok (⟨chunk, upvalsIntoList child.upvals⟩, q.2)
termination_by structural fuel

/-- `CodeGen::visit_block` (compiler/mod.rs:93); a non-block node hits the
`panic!("Block should be ensured by parser")`. -/
def visit_block (fuel : Nat) (node : Node) (ins : List OpMode) (st : St) :
    Except Failure (List OpMode × St) :=
  match fuel with
  | 0 => .error .fuelOut
  | fuel + 1 =>
    match node with
    | .Block (.mk stats ret) =>
      match visit_stats fuel stats ins st with
      | .error e => .error e
      | .ok (ins, st) =>
        match ret with
        | some ret_exprs => visit_stat fuel (.Ret ret_exprs) ins st
        | none => .ok (ins, st)
    | .Expr _ => .error (.panicked "Block should be ensured by parser")
termination_by structural fuel

/-- The statement loop of `visit_block`. -/
def visit_stats (fuel : Nat) (stats : List Stat) (ins : List OpMode) (st : St) :
    Except Failure (List OpMode × St) :=
  match fuel with
  | 0 => .error .fuelOut
  | fuel + 1 =>
    match stats with
    | [] => .ok (ins, st)
    | s :: rest =>
      match visit_stat fuel s ins st with
      | .error e => .error e
      | .ok (ins, st) => visit_stats fuel rest ins st
termination_by structural fuel

/-- `CodeGen::visit_stat` (compiler/mod.rs:113); `Empty`, `Break`, `IfElse`,
`While` and `ForRange` fall into the `unimplemented!()` arm. -/
def visit_stat (fuel : Nat) (stat : Stat) (ins : List OpMode) (st : St) :
    Except Failure (List OpMode × St) :=
  match fuel with
  | 0 => .error .fuelOut
  | fuel + 1 =>
    match stat with
    | .Assign varlist exprlist =>
      match adjust_list fuel varlist.length exprlist ins st with
      | .error e => .error e
      | .ok (exprlist', ins, st) =>
        match visit_exprlist fuel exprlist' ins st with
        | .error e => .error e
        | .ok (reg_list, ins, st) => assignPairs (varlist.zip reg_list) ins st
    | .AssignLocal namelist exprlist =>
      match adjust_list fuel namelist.length exprlist ins st with
      | .error e => .error e
      | .ok (exprlist', ins, st) =>
        match visit_exprlist fuel exprlist' ins st with
        | .error e => .error e
        | .ok (reg_list, ins, st) =>
          .ok (assignLocalPairs (namelist.zip reg_list) ins st)
    | .Ret exprlist =>
      let q := pushRegs exprlist.length st
      let reg_list := q.1
      let ret_num := reg_list.length
      let start_register := match reg_list with | r :: _ => r | [] => 0
      match visit_ret_exprs fuel (exprlist.zip reg_list) ins q.2 with
      | .error e => .error e
      | .ok (ins, st) =>
        .ok (ins ++ [OpMode.iABx .RETURN start_register (ret_num + 1)], st)
    | _ => .error (.panicked "not implemented")
termination_by structural fuel

/-- The `Expect::Reg(start + i)` materialization loop of `Stat::Ret`. -/
def visit_ret_exprs (fuel : Nat) (pairs : List (Expr × Nat)) (ins : List OpMode)
    (st : St) : Except Failure (List OpMode × St) :=
  match fuel with
  | 0 => .error .fuelOut
  | fuel + 1 =>
    match pairs with
    | [] => .ok (ins, st)
    | (e, reg) :: rest =>
      match visit_expr fuel e (some (.Reg reg)) ins st with
      | .error er => .error er
      | .ok (_, ins, st) => visit_ret_exprs fuel rest ins st
termination_by structural fuel

/-- `CodeGen::visit_expr` (compiler/mod.rs:198); returns
`(is_temp, register)`.  `Expr::Str` falls into the `unimplemented!()` arm,
as does `FlagType::Minus` under `UnaryOp`. -/
def visit_expr (fuel : Nat) (expr : Expr) (expect : Option Expect)
    (ins : List OpMode) (st : St) :
    Except Failure ((Bool × Nat) × List OpMode × St) :=
  match fuel with
  | 0 => .error .fuelOut
  | fuel + 1 =>
    match expr with
    | .Num num =>
      let cp := st.constPush (.Real num)
      match extractExpectReg expect with
      | .error e => .error e
      | .ok r? =>
        let q := match r? with
          | some r => (r, cp.2)
          | none => cp.2.regPush
        .ok ((true, q.1), ins ++ [OpMode.iABx .LOADK q.1 cp.1], q.2)
    | .Boole value =>
      let bit := if value then 1 else 0
      match extractExpectReg expect with
      | .error e => .error e
      | .ok r? =>
        let q := match r? with
          | some r => (r, st)
          | none => st.regPush
        .ok ((true, q.1), ins ++ [OpMode.iABC .LOADBOOL q.1 bit 0], q.2)
    | .BinOp flag left right =>
      match flag with
      | .Plus | .Minus | .Mul | .Div =>
        match visit_expr fuel left none ins st with
        | .error e => .error e
        | .ok ((is_temp, left_reg), ins, st) =>
          match visit_expr fuel right none ins st with
          | .error e => .error e
          | .ok ((_, right_reg), ins, st) =>
            match flagToOp flag with
            | none => .error (.panicked "BinOp not defined")
            | some op =>
              match extractExpectReg expect with
              | .error e => .error e
              | .ok r? =>
                let q : Bool × Nat × St := match r? with
                  | some e => (false, e, st)
                  | none =>
                    if is_temp then (true, left_reg, st)
                    else
                      let p := st.regPush
                      (true, p.1, p.2)
                .ok ((q.1, q.2.1),
                     ins ++ [OpMode.iABC op q.2.1 left_reg right_reg], q.2.2)
      | _ => visit_logic_arith fuel expr expect ins st
    | .Var v =>
      match extractExpectReg expect with
      | .error e => .error e
      | .ok r? => visit_var v r? ins st
    | .FunctionDef namelist is_vararg body =>
      let st := { st with symtab := st.symtab.beginScope }
      match visit_function fuel (.Block body) namelist is_vararg st with
      | .error e => .error e
      | .ok (fp, st) =>
        let st := { st with symtab := st.symtab.endScope }
        let q := st.funcPush fp.prototype
        match extractExpectReg expect with
        | .error e => .error e
        | .ok r? =>
          let w := match r? with
            | some r => (r, q.2)
            | none => q.2.regPush
          .ok ((true, w.1),
               ins ++ OpMode.iABx .CLOSURE w.1 q.1 :: closureUpvalMoves fp.upvalue_list,
               w.2)
    | .FunctionCall f args is_va =>
      match visit_function_call fuel f args is_va (.Num 1) ins st with
      | .error e => .error e
      | .ok (central, ins, st) => .ok ((true, central), ins, st)
    | .UnaryOp op left =>
      match op with
      | .Minus => .error (.panicked "not implemented")
      | .Plus => visit_expr fuel left expect ins st
      | _ => visit_logic_arith fuel expr expect ins st
    | .Str _ => .error (.panicked "not implemented")
termination_by structural fuel

/-- `CodeGen::visit_logic_arith` (compiler/mod.rs:307): boolean lowering plus
the two-`LOADBOOL` materializing tail, label-resolved locally. -/
def visit_logic_arith (fuel : Nat) (expr : Expr) (expect : Option Expect)
    (ins : List OpMode) (st : St) :
    Except Failure ((Bool × Nat) × List OpMode × St) :=
  match fuel with
  | 0 => .error .fuelOut
  | fuel + 1 =>
    match extractExpectReg expect with
    | .error e => .error e
    | .ok r? =>
      let q := match r? with
        | some r => (r, st)
        | none => st.regPush
      let result_reg := q.1
      let tl := q.2.newLabel
      let fl := tl.2.newLabel
      match visit_boolean_expr fuel expr tl.1 fl.1 true fl.2 with
      | .error e => .error e
      | .ok (raw, st) =>
        let raw := raw ++ [OpMode.Label fl.1, OpMode.iABC .LOADBOOL result_reg 0 1,
                           OpMode.Label tl.1, OpMode.iABC .LOADBOOL result_reg 1 0]
        .ok ((true, result_reg), ins ++ removeLabel raw, st)
termination_by structural fuel

/-- `CodeGen::visit_boolean_expr` (compiler/mod.rs:330): short-circuit
lowering into a fresh stream fragment targeting two labels; the caller's
`fall_through` bit picks the label that needs no branch. -/
def visit_boolean_expr (fuel : Nat) (expr : Expr) (true_br false_br : Nat)
    (fall_through : Bool) (st : St) : Except Failure (List OpMode × St) :=
  match fuel with
  | 0 => .error .fuelOut
  | fuel + 1 =>
    match expr with
    | .BinOp op left right =>
      match op with
      | .OR =>
        let lr := st.newLabel
        match visit_boolean_expr fuel left true_br lr.1 true lr.2 with
        | .error e => .error e
        | .ok (left_raw, st) =>
          match visit_boolean_expr fuel right true_br false_br fall_through st with
          | .error e => .error e
          | .ok (right_raw, st) =>
            .ok (left_raw ++ OpMode.Label lr.1 :: right_raw, st)
      | .AND =>
        let lr := st.newLabel
        match visit_boolean_expr fuel left lr.1 false_br false lr.2 with
        | .error e => .error e
        | .ok (left_raw, st) =>
          match visit_boolean_expr fuel right true_br false_br fall_through st with
          | .error e => .error e
          | .ok (right_raw, st) =>
            .ok (left_raw ++ OpMode.Label lr.1 :: right_raw, st)
      | .LESS | .LEQ | .GREATER | .GEQ | .EQ | .NEQ =>
        match visit_expr fuel left none [] st with
        | .error e => .error e
        | .ok ((_, left_reg), raw, st) =>
          match visit_expr fuel right none raw st with
          | .error e => .error e
          | .ok ((_, right_reg), raw, st) =>
            let pair : OpName × Bool := match op with
              | .LESS => (.LT, true)
              | .LEQ => (.LE, true)
              | .GREATER => (.LE, false)
              | .GEQ => (.LT, false)
              | .EQ => (.EQ, true)
              | _ => (.EQ, false)
            let test_int : Nat := if fall_through then (if pair.2 then 1 else 0)
              else (if pair.2 then 0 else 1)
            let path := if fall_through then true_br else false_br
            .ok (raw ++ [OpMode.iABC pair.1 test_int left_reg right_reg,
                         OpMode.iAsBx .JMP 0 (path : Int)], st)
      | _ => .error (.panicked "expression not accept as boolean")
    | .UnaryOp op left =>
      match op with
      | .Not => visit_boolean_expr fuel left false_br true_br (!fall_through) st
      | _ => .error (.panicked "expression not accept as boolean")
    | .Var v =>
      match visit_var v none [] st with
      | .error e => .error e
      | .ok ((_, reg), raw, st) =>
        if fall_through then
          .ok (raw ++ [OpMode.iABx .TEST reg 1, OpMode.iAsBx .JMP 0 (true_br : Int)], st)
        else
          .ok (raw ++ [OpMode.iABx .TEST reg 0, OpMode.iAsBx .JMP 0 (false_br : Int)], st)
    | .Boole value =>
      if value then .ok ([OpMode.iAsBx .JMP 0 (true_br : Int)], st)
      else .ok ([OpMode.iAsBx .JMP 0 (false_br : Int)], st)
    | _ => .error (.panicked "expression not accept")
termination_by structural fuel

/-- `CodeGen::visit_exprlist` (compiler/mod.rs:434): the length check over
the filtered results; an entry count short of the input list yields
`CompileError::SyntexError`. -/
def visit_exprlist (fuel : Nat) (exprlist : List Expr) (ins : List OpMode)
    (st : St) : Except Failure (List (Bool × Nat) × List OpMode × St) :=
  match fuel with
  | 0 => .error .fuelOut
  | fuel + 1 =>
    match visit_exprlist_each fuel exprlist ins st with
    | .error e => .error e
    | .ok (reg_list, ins, st) =>
      if reg_list.length = exprlist.length then .ok (reg_list, ins, st)
      else .error (.err .SyntexError)
termination_by structural fuel

/-- The `map`/`filter(is_ok)` iterator inside `visit_exprlist`: every
expression is visited, `Err` results are silently dropped (in Rust the
instructions a failed visit already appended stay in the buffer; they are
discarded here, and no claim observes them since compilation fails
afterwards), panics propagate. -/
def visit_exprlist_each (fuel : Nat) (exprlist : List Expr) (ins : List OpMode)
    (st : St) : Except Failure (List (Bool × Nat) × List OpMode × St) :=
  match fuel with
  | 0 => .error .fuelOut
  | fuel + 1 =>
    match exprlist with
    | [] => .ok ([], ins, st)
    | e :: rest =>
      match visit_expr fuel e none ins st with
      | .error (.err _) => visit_exprlist_each fuel rest ins st
      | .error (.panicked m) => .error (.panicked m)
      | .error .fuelOut => .error .fuelOut
      | .ok (r, ins, st) =>
        match visit_exprlist_each fuel rest ins st with
        | .error e => .error e
        | .ok (rs, ins, st) => .ok (r :: rs, ins, st)
termination_by structural fuel

/-- `CodeGen::adjust_list` (compiler/mod.rs:569): trim or extend the
expression list to the variable count; the `LOADNIL` for missing values is
emitted here, before the expressions themselves are compiled.  The source is
generic over the variable-list element and returns `varlist.clone()`
unchanged beside the adjusted expressions; only `varlist.len()` is consulted,
so this embedding takes the length and each caller pairs the result with its
own (identical) variable list. -/
def adjust_list (fuel : Nat) (vars_len : Nat)
    (exprlist : List Expr) (ins : List OpMode) (st : St) :
    Except Failure (List Expr × List OpMode × St) :=
  match fuel with
  | 0 => .error .fuelOut
  | fuel + 1 =>
    if vars_len = exprlist.length then
      .ok (exprlist, ins, st)
    else if vars_len < exprlist.length then
      .ok (exprlist.take vars_len, ins, st)
    else
      match exprlist with
      | [Expr.FunctionCall f args is_va] =>
        match visit_function_call fuel f args is_va (.Num vars_len) ins st with
        | .error e => .error e
        | .ok (central_reg, ins, st) =>
          let expr_regs := (List.range vars_len).map
            (fun i => Expr.Var (Var.Reg (central_reg + i)))
          .ok (expr_regs, ins, st)
      | _ =>
        let num := vars_len - exprlist.length
        let p := st.regPush
        let q := pushRegs (num - 1) p.2
        let extended := exprlist ++
          (p.1 :: q.1).map (fun r => Expr.Var (Var.Reg r))
        .ok (extended,
             ins ++ [OpMode.iABx .LOADNIL p.1 (num - 1)], q.2)
termination_by structural fuel

/-- `CodeGen::visit_function_call` (compiler/mod.rs:508): callee into a fresh
register, result registers pre-allocated for `RetExpect::Num`, arguments into
the following registers, a call as last argument compiled with
`RetExpect::Indeterminate`, then the `CALL`. -/
def visit_function_call (fuel : Nat) (f : Expr) (args : List Expr)
    (is_vararg : Bool) (expect_ret : RetExpect) (ins : List OpMode) (st : St) :
    Except Failure (Nat × List OpMode × St) :=
  match fuel with
  | 0 => .error .fuelOut
  | fuel + 1 =>
    let fp := st.regPush
    let func_pos := fp.1
    match visit_expr fuel f (some (.Reg func_pos)) ins fp.2 with
    | .error e => .error e
    | .ok (_, ins, st) =>
      let rq := retFieldPair expect_ret st
      let ret_field := rq.1
      let st := rq.2
      match args with
      | [] =>
        .ok (func_pos, ins ++ [OpMode.iABC .CALL func_pos 1 ret_field], st)
      | _ =>
        match args.getLast? with
        | some (Expr.FunctionCall inner_f inner_args inner_va) =>
          match visit_args fuel args.dropLast (func_pos + 1) ins st with
          | .error e => .error e
          | .ok (ins, st) =>
            match visit_function_call fuel inner_f inner_args inner_va
                .Indeterminate ins st with
            | .error e => .error e
            | .ok (_, ins, st) =>
              .ok (func_pos, ins ++ [OpMode.iABC .CALL func_pos 0 ret_field], st)
        | _ =>
          match visit_args fuel args (func_pos + 1) ins st with
          | .error e => .error e
          | .ok (ins, st) =>
            .ok (func_pos,
                 ins ++ [OpMode.iABC .CALL func_pos (args.length + 1) ret_field], st)
termination_by structural fuel

/-- The argument materialization loop of `visit_function_call`: each argument
into the next contiguous register. -/
def visit_args (fuel : Nat) (args : List Expr) (args_reg : Nat)
    (ins : List OpMode) (st : St) : Except Failure (List OpMode × St) :=
  match fuel with
  | 0 => .error .fuelOut
  | fuel + 1 =>
    match args with
    | [] => .ok (ins, st)
    | a :: rest =>
      match visit_expr fuel a (some (.Reg args_reg)) ins st with
      | .error e => .error e
      | .ok (_, ins, st) => visit_args fuel rest (args_reg + 1) ins st

termination_by structural fuel
end

/-- `CodeGen::compile` / `visit_unit` (compiler/mod.rs:32,39): the root
function is compiled with no parameters and `is_vararg = true`; on success
the root `FunctionChunk` is the observable output. -/
def compile (fuel : Nat) (ast : Node) : Except Failure FunctionChunk :=
  match visit_function fuel ast [] true St.init with
  | .error e => .error e
  | .ok (fp, _) => .ok fp.prototype

end Rua

/-! ### Concrete programs used by the claim theorems -/

namespace Rua

/-- `local f = 1; local a = f(1, 2)`: the call passes one more argument than
the single pre-allocated result register. -/
def astC1 : Node := .Block (.mk
  [ .AssignLocal ["f"] [.Num 1],
    .AssignLocal ["a"] [.FunctionCall (.Var (.Name "f")) [.Num 1, .Num 2] false] ]
  none)

/-- The chunk `compile` produces for `astC1`: the second argument lands in
register 3 (`LOADK 3`, read back by `CALL 1 3 2`) which was never vended by
the register allocator, so the reported stack size stays at 3. -/
def c1chunk : FunctionChunk := .mk 0 0 true 3 6
  [ .iABx .LOADK 0 0, .iABx .MOVE 1 0, .iABx .LOADK 2 0, .iABx .LOADK 3 1,
    .iABC .CALL 1 3 2, .iABx .RETURN 0 1 ]
  [ .Real 1, .Real 2 ] 0 []

/-- `a = x` with `x` defined nowhere: the expression visit fails with
`UndefinedSymbol`. -/
def astC2 : Node := .Block (.mk [.Assign [.Name "a"] [.Var (.Name "x")]] none)

/-- A bare `break` statement. -/
def astBreak : Node := .Block (.mk [.Break] none)

/-- `local a = -1`: unary minus. -/
def astUnaryMinus : Node :=
  .Block (.mk [.AssignLocal ["a"] [.UnaryOp .Minus (.Num 1)]] none)

/-- An assignment whose target is a prefix-expression, not a simple name. -/
def astPexpTarget : Node :=
  .Block (.mk [.Assign [.pexp (.Num 1)] [.Num 1]] none)

/-- `local x = 1; g = function() x = 2 end`: the inner assignment target
resolves to an upvalue. -/
def astUpvalAssign : Node := .Block (.mk
  [ .AssignLocal ["x"] [.Num 1],
    .Assign [.Name "g"]
      [.FunctionDef [] false (.mk [.Assign [.Name "x"] [.Num 2]] none)] ]
  none)

/-- `local a, b, c = 1`. -/
def astC4 : Node := .Block (.mk [.AssignLocal ["a", "b", "c"] [.Num 1]] none)

/-- The chunk `compile` produces for `astC4`: the `LOADNIL` from
`adjust_list` precedes the `LOADK` of the literal; `a` ends bound to
register 2, `b` to 0 and `c` to 1. -/
def c4chunk : FunctionChunk := .mk 0 0 true 3 3
  [ .iABx .LOADNIL 0 1, .iABx .LOADK 2 0, .iABx .RETURN 0 1 ]
  [ .Real 1 ] 0 []

/-- The claimed return-count field of `CALL` (spec §4.7):
`RetExpect::Num(k) => C = k + 1`, `Indeterminate => C = 0`. -/
def specCallC : RetExpect → Nat
  | .Num k => k + 1
  | .Indeterminate => 0

/-- The claimed relational mapping (spec §4.6):
operator to (opcode, polarity) for a comparison falling through to true. -/
def specRelMap : FlagType → Option (OpName × Bool)
  | .LESS => some (.LT, true)
  | .LEQ => some (.LE, true)
  | .GREATER => some (.LE, false)
  | .GEQ => some (.LT, false)
  | .EQ => some (.EQ, true)
  | .NEQ => some (.EQ, false)
  | _ => none

/-! ### One-step unfolding equations

The mutual visitors are compiled by structural recursion on the fuel; the
following equations, each proved by `rfl`, expose one step of that recursion
for use in the theorems below. -/

theorem visit_exprlist_each_succ_nil (fuel : Nat) (ins : List OpMode) (st : St) :
    visit_exprlist_each (fuel + 1) [] ins st = .ok ([], ins, st) := rfl

theorem visit_exprlist_each_succ_cons (fuel : Nat) (a : Expr) (rest : List Expr)
    (ins : List OpMode) (st : St) :
    visit_exprlist_each (fuel + 1) (a :: rest) ins st =
      match visit_expr fuel a none ins st with
      | .error (.err _) => visit_exprlist_each fuel rest ins st
      | .error (.panicked m) => .error (.panicked m)
      | .error .fuelOut => .error .fuelOut
      | .ok (r, ins2, st2) =>
        match visit_exprlist_each fuel rest ins2 st2 with
        | .error e2 => .error e2
        | .ok (rs, ins3, st3) => .ok (r :: rs, ins3, st3) := rfl

/-! ### Theorems -/

/-- Helper: the iterator inside `visit_exprlist` never surfaces a structured
error itself: `Err` results of element visits are dropped by the
`filter(is_ok)`, only panics (and fuel exhaustion) propagate. -/
theorem visit_exprlist_each_no_err (fuel : Nat) :
    ∀ (es : List Expr) (ins : List OpMode) (st : St) (e : CompileError),
    visit_exprlist_each fuel es ins st ≠ .error (.err e) := by
  induction fuel with
  | zero =>
    intro es ins st e h
    simp [visit_exprlist_each] at h
  | succ fuel ih =>
    intro es ins st e h
    cases es with
    | nil => rw [visit_exprlist_each_succ_nil] at h; simp at h
    | cons a rest =>
      rw [visit_exprlist_each_succ_cons] at h
      cases hv : visit_expr fuel a none ins st with
      | error f =>
        cases f with
        | err e2 =>
          rw [hv] at h
          exact ih rest ins st e h
        | panicked m => rw [hv] at h; simp at h
        | fuelOut => rw [hv] at h; simp at h
      | ok v =>
        obtain ⟨r, ins2, st2⟩ := v
        rw [hv] at h
        simp only [] at h
        cases he : visit_exprlist_each fuel rest ins2 st2 with
        | error f =>
          rw [he] at h
          simp at h
          exact ih rest ins2 st2 e (by rw [he, h])
        | ok w =>
          obtain ⟨rs, ins3, st3⟩ := w
          rw [he] at h
          simp at h


theorem visit_exprlist_succ (fuel : Nat) (es : List Expr) (ins : List OpMode)
    (st : St) :
    visit_exprlist (fuel + 1) es ins st =
      match visit_exprlist_each fuel es ins st with
      | .error e => .error e
      | .ok (reg_list, ins2, st2) =>
        if reg_list.length = es.length then .ok (reg_list, ins2, st2)
        else .error (.err .SyntexError) := rfl

theorem visit_expr_succ_num_expect (fuel : Nat) (n : Number) (r : Nat)
    (ins : List OpMode) (st : St) :
    visit_expr (fuel + 1) (Expr.Num n) (some (.Reg r)) ins st =
      .ok ((true, r), ins ++ [OpMode.iABx .LOADK r (st.constPush (.Real n)).1],
           (st.constPush (.Real n)).2) := rfl

/-- Pushing a constant never touches the register allocator. -/
theorem constPush_regCount (a : RAlloc) (v : ConstType) :
    (a.constPush v).2.regCount = a.regCount := by
  unfold RAlloc.constPush
  cases constIndex a.consts v <;> rfl

/-- C2 (amended): when a statement's expression list contains a failing
expression, `compile` does not propagate that error: `visit_exprlist` drops
every failed result (still visiting the remaining expressions) and reports
the resulting length mismatch as `CompileError::SyntexError`, so the only
structured error `visit_exprlist` can return is `SyntexError`. -/
theorem visit_exprlist_error_is_syntex (fuel : Nat) (es : List Expr)
    (ins : List OpMode) (st : St) (e : CompileError)
    (h : visit_exprlist fuel es ins st = .error (.err e)) :
    e = CompileError.SyntexError := by
  cases fuel with
  | zero => simp [visit_exprlist] at h
  | succ fuel =>
    rw [visit_exprlist_succ] at h
    cases he : visit_exprlist_each fuel es ins st with
    | error f =>
      rw [he] at h
      simp only [Except.error.injEq] at h
      exact absurd (by rw [he, h]) (visit_exprlist_each_no_err fuel es ins st e)
    | ok w =>
      obtain ⟨rl, ins2, st2⟩ := w
      rw [he] at h
      simp only [] at h
      by_cases hl : rl.length = es.length
      · rw [if_pos hl] at h
        exact absurd h (by simp)
      · rw [if_neg hl] at h
        simp only [Except.error.injEq, Failure.err.injEq] at h
        exact h.symm

theorem visit_exprlist_error_is_syntex_witness :
    CompileError.SyntexError = CompileError.SyntexError :=
  visit_exprlist_error_is_syntex 10 [Expr.Var (Var.Name "x")] [] St.init
    CompileError.SyntexError rfl

/-- C2 (counterexample): in `a = x` with `x` undefined, the expression visit
fails with `UndefinedSymbol`, yet `compile` returns `SyntexError`: the first
error does not propagate unchanged. -/
theorem exprlist_error_masked_counterexample :
    visit_expr 10 (Expr.Var (Var.Name "x")) none [] St.init =
      .error (.err CompileError.UndefinedSymbol) ∧
    compile 40 astC2 = .error (.err CompileError.SyntexError) ∧
    CompileError.UndefinedSymbol ≠ CompileError.SyntexError :=
  ⟨rfl, rfl, by decide⟩

/-- C1: compiling `local f = 1; local a = f(1, 2)` succeeds with
`maxstacksize = 3`, but the emitted code stores the second argument in
register 3 (`LOADK 3, k1`) and the `CALL 1 3 2` reads registers up to 3:
`visit_function_call` materializes arguments past the pre-allocated result
registers without ever allocating them, violating the claimed invariant that
every register operand is `< maxstacksize`. -/
theorem call_arg_register_exceeds_reported_stack :
    compile 40 astC1 = .ok c1chunk ∧ c1chunk.stack_size = 3 ∧
    OpMode.iABx OpName.LOADK 3 1 ∈ c1chunk.instructions :=
  ⟨rfl, rfl, by decide⟩

/-- C3 (counterexample): a `break` statement makes `compile` panic (Rust
`unimplemented!()`); the caller never receives a structured
`Unimplemented` error value. -/
theorem break_stat_panics_counterexample :
    compile 40 astBreak = .error (.panicked "not implemented") ∧
    compile 40 astBreak ≠ .error (.err CompileError.Unimplemented) := by
  have h : compile 40 astBreak = .error (.panicked "not implemented") := rfl
  refine ⟨h, ?_⟩
  rw [h]
  simp

/-- C3 (amended): every out-of-scope feature — `break` (and the other
statement forms), unary minus, a non-name assignment target, and an
assignment whose target resolves to an upvalue — aborts compilation through
the panic channel (`unimplemented!()`), not through a returned error. -/
theorem unimplemented_features_panic :
    compile 40 astBreak = .error (.panicked "not implemented") ∧
    compile 40 astUnaryMinus = .error (.panicked "not implemented") ∧
    compile 40 astPexpTarget = .error (.panicked "not implemented") ∧
    compile 40 astUpvalAssign = .error (.panicked "not implemented") :=
  ⟨rfl, rfl, rfl, rfl⟩

/-- C4 (counterexample): for `local a, b, c = 1` the `LOADNIL` is the first
instruction of the chunk and the `LOADK` for the literal comes second —
the opposite of the claimed order (`adjust_list` emits the `LOADNIL` while
adjusting, before any expression is compiled). -/
theorem loadnil_precedes_loadk_counterexample :
    compile 40 astC4 = .ok c4chunk ∧
    c4chunk.instructions.head? = some (OpMode.iABx .LOADNIL 0 1) ∧
    c4chunk.instructions[1]? = some (OpMode.iABx .LOADK 2 0) :=
  ⟨rfl, rfl, rfl⟩

/-- C4 (amended): compiling `local a, b, c = 1` emits first the single
`LOADNIL` with `A = 0` (the register subsequently bound to `b`; `c` gets 1
and `a` the literal's register 2) and `Bx = |vars| - |exprs| - 1 = 1`, and
then the `LOADK` for the literal `1`. -/
theorem imbalanced_local_emits_loadnil_then_loadk :
    compile 40 astC4 = .ok c4chunk ∧
    c4chunk.instructions =
      [OpMode.iABx .LOADNIL 0 1, OpMode.iABx .LOADK 2 0, OpMode.iABx .RETURN 0 1] ∧
    c4chunk.stack_size = 3 :=
  ⟨rfl, rfl, rfl⟩

/-- C9 (counterexample): `visit_expr` on the literal `7` with a
caller-provided `Expect::Reg(5)` (on a state whose registers 0–5 were all
allocated by the caller) reports `is_temp = true` for register 5 and
allocates nothing, contradicting the claim that a caller-owned expected
register is never reported temporary. -/
theorem num_literal_expect_reports_temp_counterexample :
    visit_expr 1 (Expr.Num 7) (some (.Reg 5)) []
        ⟨⟨6, [], [], 0, []⟩, [], SymTable.new⟩ =
      .ok ((true, 5), [OpMode.iABx .LOADK 5 0],
           ⟨⟨6, [.Real 7], [], 0, []⟩, [], SymTable.new⟩) := rfl

/-- C9 (amended): a numeric literal visited with a caller-provided
`Expect::Reg(r)` always returns `is_temp = true` together with that very
register, allocating no register of its own; `is_temp` therefore does not
mean the returned register was freshly allocated by the visit. -/
theorem num_literal_expect_is_temp (fuel : Nat) (n : Number) (r : Nat)
    (ins : List OpMode) (st : St) :
    ∃ cp st', visit_expr (fuel + 1) (Expr.Num n) (some (.Reg r)) ins st =
        .ok ((true, r), ins ++ [OpMode.iABx .LOADK r cp], st') ∧
      st'.cur.regCount = st.cur.regCount := by
  refine ⟨(st.constPush (.Real n)).1, (st.constPush (.Real n)).2,
    visit_expr_succ_num_expect fuel n r ins st, ?_⟩
  simp only [St.constPush]
  exact constPush_regCount st.cur (.Real n)

/-- C10: handing `compile` a root node that is an expression rather than a
block panics inside `visit_block` (`panic!("Block should be ensured by
parser")`); the `Result` channel never reports a non-block root. -/
theorem compile_expr_root_panics (n : Nat) (e : Expr) :
    compile (n + 2) (Node.Expr e) =
      .error (.panicked "Block should be ensured by parser") := rfl

theorem visit_function_call_succ (fuel : Nat) (f : Expr) (args : List Expr)
    (va : Bool) (er : RetExpect) (ins : List OpMode) (st : St) :
    visit_function_call (fuel + 1) f args va er ins st =
      match visit_expr fuel f (some (.Reg st.cur.regCount)) ins
          { st with cur := { st.cur with regCount := st.cur.regCount + 1 } } with
      | .error e => .error e
      | .ok (_, ins2, st2) =>
        match args with
        | [] =>
          .ok (st.cur.regCount,
               ins2 ++ [OpMode.iABC .CALL st.cur.regCount 1 (retFieldPair er st2).1],
               (retFieldPair er st2).2)
        | _ =>
          match args.getLast? with
          | some (Expr.FunctionCall g gargs gva) =>
            match visit_args fuel args.dropLast (st.cur.regCount + 1) ins2
                (retFieldPair er st2).2 with
            | .error e => .error e
            | .ok (ins3, st3) =>
              match visit_function_call fuel g gargs gva .Indeterminate ins3 st3 with
              | .error e => .error e
              | .ok (_, ins4, st4) =>
                .ok (st.cur.regCount,
                     ins4 ++ [OpMode.iABC .CALL st.cur.regCount 0 (retFieldPair er st2).1],
                     st4)
          | _ =>
            match visit_args fuel args (st.cur.regCount + 1) ins2
                (retFieldPair er st2).2 with
            | .error e => .error e
            | .ok (ins3, st3) =>
              .ok (st.cur.regCount,
                   ins3 ++ [OpMode.iABC .CALL st.cur.regCount (args.length + 1)
                              (retFieldPair er st2).1],
                   st3) := rfl

theorem retFieldPair_fst (er : RetExpect) (st : St) :
    (retFieldPair er st).1 = specCallC er := by
  cases er <;> rfl

/-- C5: the `CALL` emitted by `visit_function_call` carries
`B = 1` for zero arguments; `B = 0` (with the inner call compiled under
`RetExpect::Indeterminate`) when the last argument is itself a call; and
`B = n + 1` for `n ≥ 1` arguments otherwise — while `C = k + 1` under
`RetExpect::Num(k)` and `C = 0` under `Indeterminate` (`specCallC`). -/
theorem call_fields_follow_arg_and_ret_shape :
    (∀ (fuel : Nat) (f : Expr) (va : Bool) (er : RetExpect) (ins : List OpMode)
        (st : St) (r : Nat) (ins' : List OpMode) (st' : St),
        visit_function_call (fuel + 1) f [] va er ins st = .ok (r, ins', st') →
        ∃ pre, ins' = pre ++ [OpMode.iABC .CALL r 1 (specCallC er)]) ∧
    (∀ (fuel : Nat) (f : Expr) (args : List Expr) (va : Bool) (er : RetExpect)
        (ins : List OpMode) (st : St) (r : Nat) (ins' : List OpMode) (st' : St)
        (g : Expr) (gargs : List Expr) (gva : Bool),
        args.getLast? = some (Expr.FunctionCall g gargs gva) →
        visit_function_call (fuel + 1) f args va er ins st = .ok (r, ins', st') →
        ∃ ir ins1 st1 ins2,
          visit_function_call fuel g gargs gva RetExpect.Indeterminate ins1 st1 =
            .ok (ir, ins2, st') ∧
          ins' = ins2 ++ [OpMode.iABC .CALL r 0 (specCallC er)]) ∧
    (∀ (fuel : Nat) (f : Expr) (args : List Expr) (va : Bool) (er : RetExpect)
        (ins : List OpMode) (st : St) (r : Nat) (ins' : List OpMode) (st' : St),
        args ≠ [] →
        (∀ (g : Expr) (gargs : List Expr) (gva : Bool),
          args.getLast? ≠ some (Expr.FunctionCall g gargs gva)) →
        visit_function_call (fuel + 1) f args va er ins st = .ok (r, ins', st') →
        ∃ pre, ins' = pre ++ [OpMode.iABC .CALL r (args.length + 1) (specCallC er)]) := by
  refine ⟨?_, ?_, ?_⟩
  · intro fuel f va er ins st r ins' st' H
    rw [visit_function_call_succ] at H
    cases hv : visit_expr fuel f (some (.Reg st.cur.regCount)) ins
        { st with cur := { st.cur with regCount := st.cur.regCount + 1 } } with
    | error e => rw [hv] at H; simp at H
    | ok v =>
      obtain ⟨w, ins2, st2⟩ := v
      rw [hv] at H
      simp only [Except.ok.injEq, Prod.mk.injEq] at H
      obtain ⟨h1, h2, h3⟩ := H
      subst h1
      subst h2
      exact ⟨ins2, by rw [retFieldPair_fst]⟩
  · intro fuel f args va er ins st r ins' st' g gargs gva hlast H
    rw [visit_function_call_succ] at H
    cases hv : visit_expr fuel f (some (.Reg st.cur.regCount)) ins
        { st with cur := { st.cur with regCount := st.cur.regCount + 1 } } with
    | error e => rw [hv] at H; simp at H
    | ok v =>
      obtain ⟨w, ins2, st2⟩ := v
      rw [hv] at H
      cases args with
      | nil => simp at hlast
      | cons a rest =>
        simp only [] at H
        rw [hlast] at H
        simp only [] at H
        cases hargs : visit_args fuel (a :: rest).dropLast (st.cur.regCount + 1)
            ins2 (retFieldPair er st2).2 with
        | error e => rw [hargs] at H; simp at H
        | ok w2 =>
          obtain ⟨ins3, st3⟩ := w2
          rw [hargs] at H
          simp only [] at H
          cases hc : visit_function_call fuel g gargs gva .Indeterminate ins3 st3 with
          | error e => rw [hc] at H; simp at H
          | ok w3 =>
            obtain ⟨ir4, ins4, st4⟩ := w3
            rw [hc] at H
            simp only [Except.ok.injEq, Prod.mk.injEq] at H
            obtain ⟨h1, h2, h3⟩ := H
            subst h1
            subst h2
            subst h3
            exact ⟨ir4, ins3, st3, ins4, hc, by rw [retFieldPair_fst]⟩
  · intro fuel f args va er ins st r ins' st' hne hfact H
    rw [visit_function_call_succ] at H
    cases hv : visit_expr fuel f (some (.Reg st.cur.regCount)) ins
        { st with cur := { st.cur with regCount := st.cur.regCount + 1 } } with
    | error e => rw [hv] at H; simp at H
    | ok v =>
      obtain ⟨w, ins2, st2⟩ := v
      rw [hv] at H
      cases args with
      | nil => exact absurd rfl hne
      | cons a rest =>
        -- the match on `getLast?` reduces to its catch-all arm, its splitter
        -- hypothesis being discharged by `hfact`
        simp only [] at H
        cases hargs : visit_args fuel (a :: rest) (st.cur.regCount + 1)
            ins2 (retFieldPair er st2).2 with
        | error e => rw [hargs] at H; simp at H
        | ok w2 =>
          obtain ⟨ins3, st3⟩ := w2
          rw [hargs] at H
          simp only [Except.ok.injEq, Prod.mk.injEq] at H
          obtain ⟨h1, h2, h3⟩ := H
          subst h1
          subst h2
          exact ⟨ins3, by rw [retFieldPair_fst]⟩

theorem call_fields_follow_arg_and_ret_shape_witness :
    ∃ pre, ([OpMode.iABx .MOVE 1 0, OpMode.iABC .CALL 1 1 2] : List OpMode) =
      pre ++ [OpMode.iABC .CALL 1 1 (specCallC (.Num 1))] :=
  call_fields_follow_arg_and_ret_shape.1 9 (.Var (.Name "f")) false (.Num 1) []
    ⟨⟨1, [], [], 0, []⟩, [], ⟨[[("f", 0)]], []⟩⟩ 1
    [OpMode.iABx .MOVE 1 0, OpMode.iABC .CALL 1 1 2]
    ⟨⟨3, [], [], 0, []⟩, [], ⟨[[("f", 0)]], []⟩⟩ rfl


theorem visit_boolean_expr_succ_rel (fuel : Nat) (op : FlagType) (opn : OpName)
    (pol : Bool) (hop : specRelMap op = some (opn, pol)) (l r : Expr)
    (tb fb : Nat) (ft : Bool) (st : St) :
    visit_boolean_expr (fuel + 1) (Expr.BinOp op l r) tb fb ft st =
      match visit_expr fuel l none [] st with
      | .error e => .error e
      | .ok ((_, left_reg), raw, st1) =>
        match visit_expr fuel r none raw st1 with
        | .error e => .error e
        | .ok ((_, right_reg), raw2, st2) =>
          .ok (raw2 ++
                [OpMode.iABC opn
                   (if ft then (if pol then 1 else 0) else (if pol then 0 else 1))
                   left_reg right_reg,
                 OpMode.iAsBx .JMP 0 (((if ft then tb else fb) : Nat) : Int)],
               st2) := by
  cases op <;>
    simp only [specRelMap, Option.some.injEq, Prod.mk.injEq, reduceCtorEq] at hop <;>
    (obtain ⟨h1, h2⟩ := hop; subst h1; subst h2; rfl)

theorem visit_boolean_expr_succ_or (fuel : Nat) (a b : Expr) (tb fb : Nat)
    (ft : Bool) (st : St) :
    visit_boolean_expr (fuel + 1) (Expr.BinOp .OR a b) tb fb ft st =
      match visit_boolean_expr fuel a tb st.cur.labelCount true
          { st with cur := { st.cur with labelCount := st.cur.labelCount + 1 } } with
      | .error e => .error e
      | .ok (left_raw, st1) =>
        match visit_boolean_expr fuel b tb fb ft st1 with
        | .error e => .error e
        | .ok (right_raw, st2) =>
          .ok (left_raw ++ OpMode.Label st.cur.labelCount :: right_raw, st2) := rfl

theorem visit_boolean_expr_succ_and (fuel : Nat) (a b : Expr) (tb fb : Nat)
    (ft : Bool) (st : St) :
    visit_boolean_expr (fuel + 1) (Expr.BinOp .AND a b) tb fb ft st =
      match visit_boolean_expr fuel a st.cur.labelCount fb false
          { st with cur := { st.cur with labelCount := st.cur.labelCount + 1 } } with
      | .error e => .error e
      | .ok (left_raw, st1) =>
        match visit_boolean_expr fuel b tb fb ft st1 with
        | .error e => .error e
        | .ok (right_raw, st2) =>
          .ok (left_raw ++ OpMode.Label st.cur.labelCount :: right_raw, st2) := rfl

/-- C6: the relational arm of `visit_boolean_expr` ends its fragment with the
comparison instruction and a `JMP`: the opcode and base polarity follow the
claimed table (`specRelMap`), the polarity bit is inverted when
`fall_through` is false, and the `JMP` then targets the false label instead
of the true label. -/
theorem relational_lowering_opcode_polarity (fuel : Nat) (op : FlagType)
    (l r : Expr) (tb fb : Nat) (ft : Bool) (st : St) (raw : List OpMode)
    (st' : St) (opn : OpName) (pol : Bool)
    (hop : specRelMap op = some (opn, pol))
    (h : visit_boolean_expr (fuel + 1) (Expr.BinOp op l r) tb fb ft st =
      .ok (raw, st')) :
    ∃ pre lreg rreg,
      raw = pre ++
        [OpMode.iABC opn
           (if ft then (if pol then 1 else 0) else (if pol then 0 else 1))
           lreg rreg,
         OpMode.iAsBx .JMP 0 (((if ft then tb else fb) : Nat) : Int)] := by
  rw [visit_boolean_expr_succ_rel fuel op opn pol hop] at h
  cases hv1 : visit_expr fuel l none [] st with
  | error e => rw [hv1] at h; simp at h
  | ok v1 =>
    obtain ⟨⟨t1, lreg⟩, raw1, st1⟩ := v1
    rw [hv1] at h
    simp only [] at h
    cases hv2 : visit_expr fuel r none raw1 st1 with
    | error e => rw [hv2] at h; simp at h
    | ok v2 =>
      obtain ⟨⟨t2, rreg⟩, raw2, st2⟩ := v2
      rw [hv2] at h
      simp only [Except.ok.injEq, Prod.mk.injEq] at h
      obtain ⟨h1, h2⟩ := h
      exact ⟨raw2, lreg, rreg, h1.symm⟩

theorem relational_lowering_opcode_polarity_witness :
    ∃ pre lreg rreg,
      ([OpMode.iABx .LOADK 0 0, OpMode.iABx .LOADK 1 1, OpMode.iABC .LT 1 0 1,
        OpMode.iAsBx .JMP 0 5] : List OpMode) =
        pre ++ [OpMode.iABC .LT 1 lreg rreg, OpMode.iAsBx .JMP 0 5] :=
  relational_lowering_opcode_polarity 9 .LESS (.Num 1) (.Num 2) 5 7 true St.init
    [OpMode.iABx .LOADK 0 0, OpMode.iABx .LOADK 1 1, OpMode.iABC .LT 1 0 1,
     OpMode.iAsBx .JMP 0 5]
    ⟨⟨2, [.Real 1, .Real 2], [], 0, []⟩, [], SymTable.new⟩ .LT true rfl rfl

/-- C7: boolean connective lowering recurses as claimed: for `a or b`, `a`
is compiled with the caller's true label, a fresh mid label as false label
and fall-through true, then `Label(mid)`, then `b` under the caller's
context; for `a and b`, `a` gets the fresh mid label as true label, the
caller's false label and fall-through false; `not a` swaps the labels and
flips the fall-through bit. -/
theorem boolean_connective_recursion :
    (∀ (fuel : Nat) (a b : Expr) (tb fb : Nat) (ft : Bool) (st : St)
        (raw : List OpMode) (st' : St),
      visit_boolean_expr (fuel + 1) (Expr.BinOp .OR a b) tb fb ft st =
        .ok (raw, st') →
      ∃ la lb stm,
        visit_boolean_expr fuel a tb st.newLabel.1 true st.newLabel.2 =
          .ok (la, stm) ∧
        visit_boolean_expr fuel b tb fb ft stm = .ok (lb, st') ∧
        raw = la ++ OpMode.Label st.newLabel.1 :: lb) ∧
    (∀ (fuel : Nat) (a b : Expr) (tb fb : Nat) (ft : Bool) (st : St)
        (raw : List OpMode) (st' : St),
      visit_boolean_expr (fuel + 1) (Expr.BinOp .AND a b) tb fb ft st =
        .ok (raw, st') →
      ∃ la lb stm,
        visit_boolean_expr fuel a st.newLabel.1 fb false st.newLabel.2 =
          .ok (la, stm) ∧
        visit_boolean_expr fuel b tb fb ft stm = .ok (lb, st') ∧
        raw = la ++ OpMode.Label st.newLabel.1 :: lb) ∧
    (∀ (fuel : Nat) (a : Expr) (tb fb : Nat) (ft : Bool) (st : St),
      visit_boolean_expr (fuel + 1) (Expr.UnaryOp .Not a) tb fb ft st =
        visit_boolean_expr fuel a fb tb (!ft) st) := by
  refine ⟨?_, ?_, ?_⟩
  · intro fuel a b tb fb ft st raw st' H
    rw [visit_boolean_expr_succ_or] at H
    cases hl : visit_boolean_expr fuel a tb st.cur.labelCount true
        { st with cur := { st.cur with labelCount := st.cur.labelCount + 1 } } with
    | error e => rw [hl] at H; simp at H
    | ok v1 =>
      obtain ⟨la, stm⟩ := v1
      rw [hl] at H
      simp only [] at H
      cases hr : visit_boolean_expr fuel b tb fb ft stm with
      | error e => rw [hr] at H; simp at H
      | ok v2 =>
        obtain ⟨lb, st2⟩ := v2
        rw [hr] at H
        simp only [Except.ok.injEq, Prod.mk.injEq] at H
        obtain ⟨h1, h2⟩ := H
        subst h2
        exact ⟨la, lb, stm, hl, hr, h1.symm⟩
  · intro fuel a b tb fb ft st raw st' H
    rw [visit_boolean_expr_succ_and] at H
    cases hl : visit_boolean_expr fuel a st.cur.labelCount fb false
        { st with cur := { st.cur with labelCount := st.cur.labelCount + 1 } } with
    | error e => rw [hl] at H; simp at H
    | ok v1 =>
      obtain ⟨la, stm⟩ := v1
      rw [hl] at H
      simp only [] at H
      cases hr : visit_boolean_expr fuel b tb fb ft stm with
      | error e => rw [hr] at H; simp at H
      | ok v2 =>
        obtain ⟨lb, st2⟩ := v2
        rw [hr] at H
        simp only [Except.ok.injEq, Prod.mk.injEq] at H
        obtain ⟨h1, h2⟩ := H
        subst h2
        exact ⟨la, lb, stm, hl, hr, h1.symm⟩
  · intro fuel a tb fb ft st
    rfl

theorem boolean_connective_recursion_witness :
    ∃ la lb stm,
      visit_boolean_expr 9 (.Boole true) 3 0 true
        ⟨⟨0, [], [], 1, []⟩, [], SymTable.new⟩ = .ok (la, stm) ∧
      visit_boolean_expr 9 (.Boole false) 3 4 true stm =
        .ok (lb, ⟨⟨0, [], [], 1, []⟩, [], SymTable.new⟩) ∧
      ([OpMode.iAsBx .JMP 0 3, OpMode.Label 0, OpMode.iAsBx .JMP 0 4] :
          List OpMode) = la ++ OpMode.Label 0 :: lb :=
  boolean_connective_recursion.1 9 (.Boole true) (.Boole false) 3 4 true St.init
    [OpMode.iAsBx .JMP 0 3, OpMode.Label 0, OpMode.iAsBx .JMP 0 4]
    ⟨⟨0, [], [], 1, []⟩, [], SymTable.new⟩ rfl

/-- C8: for `local x = expr`, when the expression's register is reported
temporary the register is re-bound to `x` (symbol table only; `push_set`
does not grow the register count) and no `MOVE` is emitted; otherwise a
fresh register is allocated, `x` is defined there, and exactly one
`MOVE new, source` is appended. -/
theorem local_decl_temp_rename_or_move (i : Nat) (x : Name) (e : Expr)
    (ins : List OpMode) (st : St) (istemp : Bool) (r : Nat)
    (ins1 : List OpMode) (st1 : St)
    (H : visit_expr (i + 1) e none ins st = .ok ((istemp, r), ins1, st1)) :
    visit_stat (i + 4) (Stat.AssignLocal [x] [e]) ins st =
      .ok (if istemp then (ins1, st1.defineLocal x r)
           else (ins1 ++ [OpMode.iABx .MOVE st1.cur.regCount r],
                 (st1.regPush.2).defineLocal x st1.cur.regCount)) := by
  have e1 : visit_stat (i + 4) (Stat.AssignLocal [x] [e]) ins st =
      match visit_exprlist (i + 3) [e] ins st with
      | .error er => .error er
      | .ok (reg_list, ins3, st3) =>
        .ok (assignLocalPairs (([x] : List Name).zip reg_list) ins3 st3) := rfl
  have e2 : visit_exprlist (i + 3) [e] ins st =
      match visit_exprlist_each (i + 2) [e] ins st with
      | .error er => .error er
      | .ok (rl, ins2, st2) =>
        if rl.length = 1 then .ok (rl, ins2, st2)
        else .error (.err .SyntexError) := rfl
  have e3 : visit_exprlist_each (i + 2) [e] ins st =
      match visit_expr (i + 1) e none ins st with
      | .error (.err _) => visit_exprlist_each (i + 1) [] ins st
      | .error (.panicked m) => .error (.panicked m)
      | .error .fuelOut => .error .fuelOut
      | .ok (rv, ins2, st2) =>
        match visit_exprlist_each (i + 1) [] ins2 st2 with
        | .error er => .error er
        | .ok (rs, ins3, st3) => .ok (rv :: rs, ins3, st3) := rfl
  rw [e1, e2, e3, H]
  cases istemp <;> rfl

theorem local_decl_temp_rename_or_move_witness :
    visit_stat 4 (Stat.AssignLocal ["a"] [Expr.Num 1]) [] St.init =
      .ok ([OpMode.iABx .LOADK 0 0],
           ⟨⟨1, [.Real 1], [], 0, []⟩, [], ⟨[[("a", 0)]], []⟩⟩) :=
  local_decl_temp_rename_or_move 0 "a" (Expr.Num 1) [] St.init true 0
    [OpMode.iABx .LOADK 0 0] ⟨⟨1, [.Real 1], [], 0, []⟩, [], SymTable.new⟩ rfl

end Rua
